import Mathlib

/-!
Verification of the struct-tag walker and its two sample handlers
(`samples/main.go` of the custom-tags article repository).

The Go program walks an arbitrary value with `reflect`, invoking a
caller-supplied `HandlerFn(value, field)` once per struct field, in
declaration order, before recursing into that field's contents; arrays,
slices and maps are recursed into element-wise; pointers are dereferenced.
Two handlers are demonstrated: regex validation driven by a `validate`
tag and environment-variable configuration driven by a `conf` tag.

The shallow embedding below mirrors `main.go` function by function.
Go's `reflect.Value` is modelled by the inductive `GoValue`;
`reflect.StructField` by the structure `StructField` (its tag string
already parsed into key/payload pairs, which the Go runtime does).
The walker is instrumented: next to the returned `Except` it yields the
list of handler invocations actually performed, in order, which is the
observable the order/fail-fast claims speak about.  The in-place
mutation the config handler performs through `reflect.Value.Set*` is
modelled by explicit state passing (`MOut`/`mHandleValue`), with
reflect's addressability rule threaded as a boolean flag.
-/

namespace CustomTags

/-- Model of `reflect.StructField`: the declared field name, the printed
name of its declared type (`field.Type` under `%v`), and the struct tag
parsed into key/payload pairs (`field.Tag.Lookup` reads this map). -/
structure StructField where
  name : String
  typeName : String
  tags : List (String × String)
  deriving DecidableEq, Repr

/-- Model of `StructTag.Lookup`: first payload for the given key, if any. -/
def tagLookup (f : StructField) (key : String) : Option String :=
  (f.tags.find? (fun p => p.1 == key)).map (fun p => p.2)

/-- A runtime value as the walker sees it through `reflect`: scalars,
structs (each field paired with its descriptor), arrays/slices, maps,
and pointers (possibly nil).  `invalid` models the zero `reflect.Value`
(the result of `Elem()` on a nil pointer). -/
inductive GoValue where
  | intV (n : Int)
  | strV (s : String)
  | boolV (b : Bool)
  | invalid
  | structV (name : String) (fields : List (StructField × GoValue))
  | arrV (isSlice : Bool) (elems : List GoValue)
  | mapV (entries : List (String × GoValue))
  | ptrV (target : Option GoValue)

/-- One handler invocation: the argument pair `(val.Field(i), typ.Field(i))`. -/
abbrev Call := GoValue × StructField

/-- The type of `TagHandler.HandlerFn`: `func(value, field) error`. -/
abbrev Handler (E : Type) := GoValue → StructField → Except E Unit

mutual
/-- `handleValue` from `main.go`: dispatch on the value's kind; struct,
array/slice and map recurse, a non-nil pointer recurses into its
pointee (`val.Elem()`), everything else (scalars, nil pointers, the
invalid value) falls through the switch and returns nil.  The first
component records the handler invocations performed, in order. -/
def handleValue {E : Type} (h : Handler E) : GoValue → List Call × Except E Unit
  | .structV _ fields => handleStruct h fields
  | .arrV _ elems => handleArray h elems
  | .mapV entries => handleMap h entries
  | .ptrV (some v) => handleValue h v
  | .ptrV none => ([], .ok ())
  | _ => ([], .ok ())

/-- `handleStruct` from `main.go`: for each field in declaration order,
invoke the handler on `(val.Field(i), typ.Field(i))`, returning its
error immediately on failure, then recurse into the field value. -/
def handleStruct {E : Type} (h : Handler E) :
    List (StructField × GoValue) → List Call × Except E Unit
  | [] => ([], .ok ())
  | (f, v) :: rest =>
    match h v f with
    | .error e => ([(v, f)], .error e)
    | .ok _ =>
      match handleValue h v with
      | (t, .error e) => ((v, f) :: t, .error e)
      | (t, .ok _) =>
        match handleStruct h rest with
        | (t2, r) => ((v, f) :: (t ++ t2), r)

/-- `handleArray` from `main.go`: recurse into each element in index
order, aborting on the first failure. -/
def handleArray {E : Type} (h : Handler E) : List GoValue → List Call × Except E Unit
  | [] => ([], .ok ())
  | v :: rest =>
    match handleValue h v with
    | (t, .error e) => (t, .error e)
    | (t, .ok _) =>
      match handleArray h rest with
      | (t2, r) => (t ++ t2, r)

/-- `handleMap` from `main.go`: recurse into each map value, aborting on
the first failure (key order is the model's entry order). -/
def handleMap {E : Type} (h : Handler E) : List (String × GoValue) → List Call × Except E Unit
  | [] => ([], .ok ())
  | (_, v) :: rest =>
    match handleValue h v with
    | (t, .error e) => (t, .error e)
    | (t, .ok _) =>
      match handleMap h rest with
      | (t2, r) => (t ++ t2, r)
end

/-- `TagHandler` from `main.go`. -/
structure TagHandler (E : Type) where
  HandlerFn : Handler E

/-- `TagHandler.Handle`: start the walk at `reflect.ValueOf(v)`. -/
def TagHandler.Handle {E : Type} (th : TagHandler E) (v : GoValue) :
    List Call × Except E Unit :=
  handleValue th.HandlerFn v

mutual
/-- The complete pre-order invocation schedule of a value: one call per
struct field, in declaration order, each field's own call placed before
the calls arising from that field's contents; sequence elements
contribute in index order. -/
def preTrace : GoValue → List Call
  | .structV _ fields => preTraceFields fields
  | .arrV _ elems => preTraceElems elems
  | .mapV entries => preTraceEntries entries
  | .ptrV (some v) => preTrace v
  | _ => []

/-- Schedule of a struct's field list, in declaration order. -/
def preTraceFields : List (StructField × GoValue) → List Call
  | [] => []
  | (f, v) :: rest => (v, f) :: (preTrace v ++ preTraceFields rest)

/-- Schedule of a sequence's elements, in index order. -/
def preTraceElems : List GoValue → List Call
  | [] => []
  | v :: rest => preTrace v ++ preTraceElems rest

/-- Schedule of a map's values, in entry order. -/
def preTraceEntries : List (String × GoValue) → List Call
  | [] => []
  | (_, v) :: rest => preTrace v ++ preTraceEntries rest
end

/-- Run the handler down a schedule of calls, stopping at the first
failure; returns the calls actually performed and the final outcome. -/
def scanCalls {E : Type} (h : Handler E) : List Call → List Call × Except E Unit
  | [] => ([], .ok ())
  | c :: rest =>
    match h c.1 c.2 with
    | .error e => ([c], .error e)
    | .ok _ => (c :: (scanCalls h rest).1, (scanCalls h rest).2)

/-- Kinds that fall through the walker's switch with no recursion and no
handler invocation: the scalar kinds and the invalid value. -/
def isScalarKind : GoValue → Bool
  | .intV _ => true
  | .strV _ => true
  | .boolV _ => true
  | .invalid => true
  | _ => false

mutual
/-- Fuel-indexed variant of `handleValue`: identical structure, but each
recursive call consumes one unit of fuel and exhausted fuel yields `none`. -/
def handleValueF {E : Type} (h : Handler E) : Nat → GoValue → Option (List Call × Except E Unit)
  | 0, _ => none
  | fuel + 1, v =>
    match v with
    | .structV _ fields => handleStructF h fuel fields
    | .arrV _ elems => handleArrayF h fuel elems
    | .mapV entries => handleMapF h fuel entries
    | .ptrV (some w) => handleValueF h fuel w
    | .ptrV none => some ([], .ok ())
    | _ => some ([], .ok ())

/-- Fuel-indexed variant of `handleStruct`. -/
def handleStructF {E : Type} (h : Handler E) :
    Nat → List (StructField × GoValue) → Option (List Call × Except E Unit)
  | 0, _ => none
  | _ + 1, [] => some ([], .ok ())
  | fuel + 1, (f, v) :: rest =>
    match h v f with
    | .error e => some ([(v, f)], .error e)
    | .ok _ =>
      match handleValueF h fuel v with
      | none => none
      | some (t, .error e) => some ((v, f) :: t, .error e)
      | some (t, .ok _) =>
        match handleStructF h fuel rest with
        | none => none
        | some (t2, r) => some ((v, f) :: (t ++ t2), r)

/-- Fuel-indexed variant of `handleArray`. -/
def handleArrayF {E : Type} (h : Handler E) :
    Nat → List GoValue → Option (List Call × Except E Unit)
  | 0, _ => none
  | _ + 1, [] => some ([], .ok ())
  | fuel + 1, v :: rest =>
    match handleValueF h fuel v with
    | none => none
    | some (t, .error e) => some (t, .error e)
    | some (t, .ok _) =>
      match handleArrayF h fuel rest with
      | none => none
      | some (t2, r) => some (t ++ t2, r)

/-- Fuel-indexed variant of `handleMap`. -/
def handleMapF {E : Type} (h : Handler E) :
    Nat → List (String × GoValue) → Option (List Call × Except E Unit)
  | 0, _ => none
  | _ + 1, [] => some ([], .ok ())
  | fuel + 1, (_, v) :: rest =>
    match handleValueF h fuel v with
    | none => none
    | some (t, .error e) => some (t, .error e)
    | some (t, .ok _) =>
      match handleMapF h fuel rest with
      | none => none
      | some (t2, r) => some (t ++ t2, r)
end

/-- A compiled regular expression, modelling the subset of `regexp` (RE2)
syntax the samples exercise: literals, dot, character classes (lists of
inclusive ranges, possibly negated), grouping, alternation, star, and the
`^`/`$` anchors.  `+` and `?` are desugared by the parser. -/
inductive Regex where
  | emptyR
  | lit (c : Char)
  | dot
  | cls (neg : Bool) (items : List (Char × Char))
  | cat (a b : Regex)
  | alt (a b : Regex)
  | star (a : Regex)
  | bol
  | eol

/-- Structural size of a regex, used to bound the matcher's fuel. -/
def reSize : Regex → Nat
  | .cat a b => reSize a + reSize b + 1
  | .alt a b => reSize a + reSize b + 1
  | .star a => reSize a + 1
  | _ => 1

/-- The ranges denoted by a class shorthand escape (`\d`, `\w`, `\s`). -/
def classEscape (c : Char) : Option (List (Char × Char)) :=
  if c == 'd' then some [('0', '9')]
  else if c == 'w' then some [('0', '9'), ('A', 'Z'), ('a', 'z'), ('_', '_')]
  else if c == 's' then some [('\t', '\n'), ('\x0c', '\x0d'), (' ', ' ')]
  else none

/-- Parse the items of a character class up to the closing bracket. -/
def parseClassItems : Nat → List Char → Except String (List (Char × Char) × List Char)
  | 0, _ => .error "pattern too deep"
  | _ + 1, [] => .error "missing closing ]"
  | _ + 1, ']' :: rest => .ok ([], rest)
  | fuel + 1, '\\' :: c :: rest =>
    match parseClassItems fuel rest with
    | .error e => .error e
    | .ok (more, rest2) =>
      match classEscape c with
      | some items => .ok (items ++ more, rest2)
      | none => .ok ((c, c) :: more, rest2)
  | _ + 1, '\\' :: [] => .error "trailing backslash at end of expression"
  | fuel + 1, c :: '-' :: d :: rest =>
    if d == ']' then .ok ([(c, c), ('-', '-')], rest)
    else if d == '\\' then .error "invalid character class range"
    else if d < c then .error "invalid character class range"
    else
      match parseClassItems fuel rest with
      | .error e => .error e
      | .ok (more, rest2) => .ok ((c, d) :: more, rest2)
  | fuel + 1, c :: rest =>
    match parseClassItems fuel rest with
    | .error e => .error e
    | .ok (more, rest2) => .ok ((c, c) :: more, rest2)

/-- Apply postfix repetition operators to a parsed atom (`+` and `?` are
desugared into star and alternation with the empty expression). -/
def repOps : Regex → List Char → Regex × List Char
  | r, '*' :: rest => repOps (.star r) rest
  | r, '+' :: rest => repOps (.cat r (.star r)) rest
  | r, '?' :: rest => repOps (.alt r .emptyR) rest
  | r, rest => (r, rest)

mutual
/-- Parse an alternation (`a|b`). -/
def parseAlt : Nat → List Char → Except String (Regex × List Char)
  | 0, _ => .error "pattern too deep"
  | fuel + 1, cs =>
    match parseCat fuel cs with
    | .error e => .error e
    | .ok (r1, rest) =>
      match rest with
      | '|' :: rest2 =>
        match parseAlt fuel rest2 with
        | .error e => .error e
        | .ok (r2, rest3) => .ok (.alt r1 r2, rest3)
      | _ => .ok (r1, rest)

/-- Parse a concatenation of repeated atoms. -/
def parseCat : Nat → List Char → Except String (Regex × List Char)
  | 0, _ => .error "pattern too deep"
  | fuel + 1, cs =>
    match cs with
    | [] => .ok (.emptyR, [])
    | ')' :: _ => .ok (.emptyR, cs)
    | '|' :: _ => .ok (.emptyR, cs)
    | _ =>
      match parseAtom fuel cs with
      | .error e => .error e
      | .ok (r1, rest0) =>
        match repOps r1 rest0 with
        | (r2, rest) =>
          match parseCat fuel rest with
          | .error e => .error e
          | .ok (r3, rest2) => .ok (.cat r2 r3, rest2)

/-- Parse a single atom: group, class, anchor, escape, dot, or literal. -/
def parseAtom : Nat → List Char → Except String (Regex × List Char)
  | 0, _ => .error "pattern too deep"
  | fuel + 1, cs =>
    match cs with
    | [] => .error "missing operand"
    | '(' :: rest =>
      match parseAlt fuel rest with
      | .error e => .error e
      | .ok (r, rest2) =>
        match rest2 with
        | ')' :: rest3 => .ok (r, rest3)
        | _ => .error "missing closing )"
    | ')' :: _ => .error "unexpected )"
    | '*' :: _ => .error "missing argument to repetition operator"
    | '+' :: _ => .error "missing argument to repetition operator"
    | '?' :: _ => .error "missing argument to repetition operator"
    | '[' :: '^' :: rest =>
      match parseClassItems (rest.length + 1) rest with
      | .error e => .error e
      | .ok (items, rest2) => .ok (.cls true items, rest2)
    | '[' :: rest =>
      match parseClassItems (rest.length + 1) rest with
      | .error e => .error e
      | .ok (items, rest2) => .ok (.cls false items, rest2)
    | '\\' :: c :: rest =>
      match classEscape c with
      | some items => .ok (.cls false items, rest)
      | none => .ok (.lit c, rest)
    | '\\' :: [] => .error "trailing backslash at end of expression"
    | '^' :: rest => .ok (.bol, rest)
    | '$' :: rest => .ok (.eol, rest)
    | '.' :: rest => .ok (.dot, rest)
    | c :: rest => .ok (.lit c, rest)
end

/-- Model of `regexp.Compile`: parse the whole pattern, requiring the
entire input to be consumed (a leftover `)` is a syntax error). -/
def regexpCompile (pattern : String) : Except String Regex :=
  match parseAlt (4 * pattern.length + 8) pattern.data with
  | .error e => .error e
  | .ok (r, []) => .ok r
  | .ok (_, _ :: _) => .error "unexpected )"

/-- Does a character fall in a (possibly negated) class? -/
def clsMatch (neg : Bool) (items : List (Char × Char)) (c : Char) : Bool :=
  let inside := items.any (fun p => p.1 ≤ c && c ≤ p.2)
  if neg then !inside else inside

/-- Backtracking matcher in continuation-passing style.  `pos` is the
offset of the remaining input inside the whole subject (so `^` can demand
the start of the text, and `$` the end); the star requires progress on
each iteration, and the fuel bounds the recursion depth. -/
def reMatch : Nat → Regex → Nat → List Char → (Nat → List Char → Bool) → Bool
  | 0, _, _, _, _ => false
  | fuel + 1, r, pos, s, k =>
    match r with
    | .emptyR => k pos s
    | .lit c =>
      match s with
      | c2 :: rest => c == c2 && k (pos + 1) rest
      | [] => false
    | .dot =>
      match s with
      | c2 :: rest => decide (c2 ≠ '\n') && k (pos + 1) rest
      | [] => false
    | .cls neg items =>
      match s with
      | c2 :: rest => clsMatch neg items c2 && k (pos + 1) rest
      | [] => false
    | .cat a b => reMatch fuel a pos s (fun pos2 s2 => reMatch fuel b pos2 s2 k)
    | .alt a b => reMatch fuel a pos s k || reMatch fuel b pos s k
    | .star a =>
      k pos s ||
        reMatch fuel a pos s (fun pos2 s2 =>
          decide (pos < pos2) && reMatch fuel (.star a) pos2 s2 k)
    | .bol => decide (pos = 0) && k pos s
    | .eol => s.isEmpty && k pos s

/-- Model of `Regexp.MatchString`: unanchored search, true when the
pattern matches some substring of `s` (anchoring comes only from `^`/`$`
written in the pattern itself). -/
def matchString (r : Regex) (s : String) : Bool :=
  let cs := s.data
  let n := cs.length
  (List.range (n + 1)).any (fun i =>
    reMatch ((n + 2) * (reSize r + 2) * 2) r i (cs.drop i) (fun _ _ => true))

mutual
/-- Models `fmt.Sprintf` with verb `%v` on the value's `Interface()`, for
the shapes `GoValue` can take: base-10 integers, verbatim strings,
`true`/`false` booleans, brace-wrapped space-separated struct fields,
bracket-wrapped sequences, `map[...]` maps, `<nil>` or `&`-prefixed
pointers.  The handlers only ever stringify scalars. -/
def goFormat : GoValue → String
  | .intV n => toString n
  | .strV s => s
  | .boolV b => cond b "true" "false"
  | .invalid => "<invalid reflect.Value>"
  | .structV _ fs => "\x7b" ++ goFormatFields fs ++ "\x7d"
  | .arrV _ es => "[" ++ goFormatElems es ++ "]"
  | .mapV es => "map[" ++ goFormatEntries es ++ "]"
  | .ptrV none => "<nil>"
  | .ptrV (some v) => "&" ++ goFormat v

/-- Space-separated field values of a struct under `%v`. -/
def goFormatFields : List (StructField × GoValue) → String
  | [] => ""
  | [p] => goFormat p.2
  | p :: rest => goFormat p.2 ++ " " ++ goFormatFields rest

/-- Space-separated elements of a sequence under `%v`. -/
def goFormatElems : List GoValue → String
  | [] => ""
  | [v] => goFormat v
  | v :: rest => goFormat v ++ " " ++ goFormatElems rest

/-- Space-separated `key:value` entries of a map under `%v`. -/
def goFormatEntries : List (String × GoValue) → String
  | [] => ""
  | [p] => p.1 ++ ":" ++ goFormat p.2
  | p :: rest => p.1 ++ ":" ++ goFormat p.2 ++ " " ++ goFormatEntries rest
end

/-- `valueToString` from `main.go`: `fmt.Sprintf("%v", value.Interface())`. -/
def valueToString (value : GoValue) : String :=
  goFormat value

/-- `handleValidateTag` from `main.go`: succeed when no `validate` tag is
declared; otherwise compile the tag as a regex (reporting a syntax error
on failure) and match the stringified value against it, reporting the
field and pattern on mismatch. -/
def handleValidateTag (value : GoValue) (field : StructField) : Except String Unit :=
  match tagLookup field "validate" with
  | none => .ok ()
  | some tag =>
    match regexpCompile tag with
    | .error e => .error ("validation regexp syntax error: " ++ e)
    | .ok re =>
      let str := valueToString value
      if matchString re str then .ok ()
      else
        .error ("invalid field (" ++ field.typeName ++ "::" ++ field.name ++ ") " ++
          str ++ " != " ++ tag)

/-- Is `needle` a leading segment of `hay`? -/
def leadsList : List Char → List Char → Bool
  | [], _ => true
  | _ :: _, [] => false
  | a :: as, b :: bs => a == b && leadsList as bs

/-- Does `hay` contain `needle` as a contiguous substring? -/
def includesList (needle : List Char) : List Char → Bool
  | [] => leadsList needle []
  | b :: bs => leadsList needle (b :: bs) || includesList needle bs

/-- Substring containment on strings (used to state what an error message
carries). -/
def strIncludes (needle hay : String) : Bool :=
  includesList needle.data hay.data

/-- The process environment, passed explicitly (`os.LookupEnv` is an
external collaborator of the code under specification). -/
abbrev Env := List (String × String)

/-- Model of `os.LookupEnv` against an explicit environment. -/
def lookupEnv (env : Env) (name : String) : Option String :=
  (env.find? (fun p => p.1 == name)).map (fun p => p.2)

/-- Go `%q`-style quoting as it appears in `strconv` error messages (none
of the strings the claims exercise need escaping). -/
def goQuote (s : String) : String :=
  "\"" ++ s ++ "\""

/-- Accumulate a base-10 value over a digit list; `none` on a non-digit. -/
def decDigits (cs : List Char) : Option Nat :=
  cs.foldl
    (fun acc c =>
      match acc with
      | none => none
      | some n => if '0' ≤ c && c ≤ '9' then some (n * 10 + (c.toNat - '0'.toNat)) else none)
    (some 0)

/-- The shape of a `strconv.Atoi` error message: the raw input, quoted as
`%q` does, between the fixed prefix and the failure kind. -/
def atoiErr (s kind : String) : String :=
  "strconv.Atoi: parsing \"" ++ (s ++ ("\": " ++ kind))

/-- Models `strconv.Atoi`: optional sign followed by base-10 digits, with
the 64-bit `int` range; syntax and range failures carry the raw input. -/
def atoi (s : String) : Except String Int :=
  let core : List Char → Bool → Except String Int := fun cs negSign =>
    match cs with
    | [] => .error (atoiErr s "invalid syntax")
    | _ =>
      match decDigits cs with
      | none => .error (atoiErr s "invalid syntax")
      | some n =>
        if negSign then
          if n > 2 ^ 63 then .error (atoiErr s "value out of range")
          else .ok (-(n : Int))
        else
          if n ≥ 2 ^ 63 then .error (atoiErr s "value out of range")
          else .ok (n : Int)
  match s.data with
  | '+' :: rest => core rest false
  | '-' :: rest => core rest true
  | cs => core cs false

/-- Outcome of a computation that may update a value, fail with a Go
error, or panic (reflect panics when setting an unaddressable value). -/
inductive MOut (α : Type) where
  | ok (a : α)
  | err (e : String)
  | panicked (msg : String)

/-- A mutating per-field handler: given the addressability of the field's
`reflect.Value`, the field value and its descriptor, return the (possibly
reassigned) value, an error, or a panic. -/
abbrev MHandler := Bool → GoValue → StructField → MOut GoValue

/-- `setValue` from `main.go`, with the mutation and reflect's
addressability rule explicit: `SetString` assigns the variable's content
verbatim, `SetInt` assigns the `Atoi`-parsed value (its error returned
first), both panicking on an unaddressable value; every other kind falls
through the switch unchanged. -/
def setValue (canAddr : Bool) (value : GoValue) (envvar : String) : MOut GoValue :=
  match value with
  | .strV _ =>
    if canAddr then .ok (.strV envvar)
    else .panicked "reflect: reflect.Value.SetString using unaddressable value"
  | .intV _ =>
    match atoi envvar with
    | .error e => .err e
    | .ok n =>
      if canAddr then .ok (.intV n)
      else .panicked "reflect: reflect.Value.SetInt using unaddressable value"
  | v => .ok v

/-- `handleConfigTag` from `main.go`: no `conf` tag or an unset
environment variable succeed without touching the field; otherwise the
variable's content is assigned via `setValue`. -/
def handleConfigTag (env : Env) : MHandler := fun canAddr value field =>
  match tagLookup field "conf" with
  | none => .ok value
  | some tag =>
    match lookupEnv env tag with
    | none => .ok value
    | some envvar => setValue canAddr value envvar

mutual
/-- The walk of `handleValue` for a mutating handler, with the in-place
writes the handler performs through `reflect` made explicit as state
passing, and the addressability of the current `reflect.Value` threaded
as `canAddr`: `reflect.ValueOf` yields an unaddressable value, `Elem()`
of a pointer and slice elements are addressable, and struct fields, array
elements and map values follow reflect's rules.  Because the walker
recurses into whatever the handler left in the field, a handler is free
to make the walk diverge (as it could in Go), so the model is indexed by
fuel: `none` means the run was cut off, and never arises once the fuel
exceeds the depth of the values traversed. -/
def mHandleValue (hm : MHandler) : Nat → Bool → GoValue → Option (MOut GoValue)
  | 0, _, _ => none
  | fuel + 1, canAddr, v =>
    match v with
    | .structV name fs =>
      match mHandleFields hm fuel canAddr fs with
      | none => none
      | some (.ok fs2) => some (.ok (.structV name fs2))
      | some (.err e) => some (.err e)
      | some (.panicked m) => some (.panicked m)
    | .arrV isSlice es =>
      match mHandleElems hm fuel (isSlice || canAddr) es with
      | none => none
      | some (.ok es2) => some (.ok (.arrV isSlice es2))
      | some (.err e) => some (.err e)
      | some (.panicked m) => some (.panicked m)
    | .mapV es =>
      match mHandleEntries hm fuel es with
      | none => none
      | some (.ok es2) => some (.ok (.mapV es2))
      | some (.err e) => some (.err e)
      | some (.panicked m) => some (.panicked m)
    | .ptrV (some w) =>
      match mHandleValue hm fuel true w with
      | none => none
      | some (.ok w2) => some (.ok (.ptrV (some w2)))
      | some (.err e) => some (.err e)
      | some (.panicked m) => some (.panicked m)
    | .ptrV none => some (.ok (.ptrV none))
    | w => some (.ok w)

/-- `handleStruct` for a mutating handler: the handler's reassignment of
`val.Field(i)` is visible to the subsequent recursion into that field. -/
def mHandleFields (hm : MHandler) :
    Nat → Bool → List (StructField × GoValue) → Option (MOut (List (StructField × GoValue)))
  | 0, _, _ => none
  | _ + 1, _, [] => some (.ok [])
  | fuel + 1, canAddr, (f, v) :: rest =>
    match hm canAddr v f with
    | .err e => some (.err e)
    | .panicked m => some (.panicked m)
    | .ok v2 =>
      match mHandleValue hm fuel canAddr v2 with
      | none => none
      | some (.err e) => some (.err e)
      | some (.panicked m) => some (.panicked m)
      | some (.ok v3) =>
        match mHandleFields hm fuel canAddr rest with
        | none => none
        | some (.err e) => some (.err e)
        | some (.panicked m) => some (.panicked m)
        | some (.ok rest2) => some (.ok ((f, v3) :: rest2))

/-- `handleArray` for a mutating handler. -/
def mHandleElems (hm : MHandler) : Nat → Bool → List GoValue → Option (MOut (List GoValue))
  | 0, _, _ => none
  | _ + 1, _, [] => some (.ok [])
  | fuel + 1, canAddr, v :: rest =>
    match mHandleValue hm fuel canAddr v with
    | none => none
    | some (.err e) => some (.err e)
    | some (.panicked m) => some (.panicked m)
    | some (.ok v2) =>
      match mHandleElems hm fuel canAddr rest with
      | none => none
      | some (.err e) => some (.err e)
      | some (.panicked m) => some (.panicked m)
      | some (.ok rest2) => some (.ok (v2 :: rest2))

/-- `handleMap` for a mutating handler (map values are unaddressable). -/
def mHandleEntries (hm : MHandler) :
    Nat → List (String × GoValue) → Option (MOut (List (String × GoValue)))
  | 0, _ => none
  | _ + 1, [] => some (.ok [])
  | fuel + 1, (key, v) :: rest =>
    match mHandleValue hm fuel false v with
    | none => none
    | some (.err e) => some (.err e)
    | some (.panicked m) => some (.panicked m)
    | some (.ok v2) =>
      match mHandleEntries hm fuel rest with
      | none => none
      | some (.err e) => some (.err e)
      | some (.panicked m) => some (.panicked m)
      | some (.ok rest2) => some (.ok ((key, v2) :: rest2))
end

/-- `TagHandler.Handle` for a mutating handler: the walk starts at
`reflect.ValueOf(v)`, which is never addressable; the updated root is
returned so the mutation the caller would observe through pointers inside
`v` is visible in the model. -/
def mHandle (hm : MHandler) (fuel : Nat) (v : GoValue) : Option (MOut GoValue) :=
  mHandleValue hm fuel false v

/-- Is the value of string or (signed) int kind — the two kinds
`setValue` parses into? -/
def isStrOrIntKind : GoValue → Bool
  | .strV _ => true
  | .intV _ => true
  | _ => false

/-- The compiled form of the `BirthYear` pattern. -/
def reBirthYear : Regex :=
  match regexpCompile "^(19|20)\\d\\d$" with
  | .ok r => r
  | .error _ => .emptyR

/-- A handler that always succeeds. -/
def hOkSample : Handler String := fun _ _ => .ok ()

/-- A handler that fails exactly on the field named "B". -/
def hFailB : Handler String := fun _ f =>
  if f.name == "B" then .error "boom" else .ok ()

/-- Fixture: a plain int field named "A". -/
def fieldA : StructField := ⟨"A", "int", []⟩

/-- Fixture: a plain string field named "B". -/
def fieldB : StructField := ⟨"B", "string", []⟩

/-- Fixture: a plain int field named "C". -/
def fieldC : StructField := ⟨"C", "int", []⟩

/-- Fixture: a three-field struct with scalar fields. -/
def sampleStruct : GoValue :=
  .structV "S" [(fieldA, .intV 1), (fieldB, .strV "x"), (fieldC, .intV 2)]

/-- Fixture: `Person.BirthYear` with its tags as declared in `main.go`. -/
def birthYearField : StructField :=
  ⟨"BirthYear", "int", [("json", "birth_year"), ("validate", "^(19|20)\\d\\d$")]⟩

/-- Fixture: a field whose `validate` tag is not a valid pattern. -/
def badPatternField : StructField :=
  ⟨"Email", "string", [("json", "email"), ("validate", "(")]⟩

/-- Fixture: `Config.HttpMaxRetries` with its tag as declared in `main.go`. -/
def httpRetriesField : StructField := ⟨"HttpMaxRetries", "int", [("conf", "HTTP_MAX_RETRIES")]⟩

/-- Fixture: `Config.ElasticsearchHost` with its tag as declared in `main.go`. -/
def elasticHostField : StructField :=
  ⟨"ElasticsearchHost", "string", [("conf", "ELASTICSEARCH_HOST")]⟩

/-- Fixture: a `Config` value with the given field contents. -/
def configValue (retries : Int) (host : String) : GoValue :=
  .structV "Config" [(httpRetriesField, .intV retries), (elasticHostField, .strV host)]

/-- Fixture: an environment setting both `Config` variables. -/
def sampleEnv : Env := [("HTTP_MAX_RETRIES", "5"), ("ELASTICSEARCH_HOST", "localhost")]

/-- Fixture: an environment whose retry count does not parse as an int. -/
def badEnv : Env := [("HTTP_MAX_RETRIES", "abc")]

/-- Fixture: a by-value root holding a pointer to a `Config`; the pointee
stays addressable even though the root itself is not. -/
def outerWithPtr : GoValue :=
  .structV "Outer" [(⟨"Cfg", "*Config", []⟩, .ptrV (some (configValue 0 "")))]

theorem scanCalls_ok_trace {E : Type} (h : Handler E) :
    ∀ (l : List Call) (u : Unit), (scanCalls h l).2 = .ok u → (scanCalls h l).1 = l := by
  intro l
  induction l with
  | nil => intro u _; simp [scanCalls]
  | cons c rest ih =>
    intro u hok
    cases hc : h c.1 c.2 with
    | error e => simp [scanCalls, hc] at hok
    | ok u2 =>
      simp only [scanCalls, hc] at hok ⊢
      rw [ih u hok]

theorem scanCalls_err_append {E : Type} (h : Handler E) :
    ∀ (l1 l2 : List Call) (e : E), (scanCalls h l1).2 = .error e →
      scanCalls h (l1 ++ l2) = ((scanCalls h l1).1, .error e) := by
  intro l1
  induction l1 with
  | nil => intro l2 e he; simp [scanCalls] at he
  | cons c rest ih =>
    intro l2 e he
    cases hc : h c.1 c.2 with
    | error e2 =>
      simp only [scanCalls, hc] at he
      simp only [Except.error.injEq] at he
      simp [scanCalls, hc, he]
    | ok u =>
      simp only [scanCalls, hc] at he
      simp only [List.cons_append, scanCalls, hc, List.append_eq]
      rw [ih l2 e he]

theorem scanCalls_ok_append {E : Type} (h : Handler E) :
    ∀ (l1 l2 : List Call) (u : Unit), (scanCalls h l1).2 = .ok u →
      scanCalls h (l1 ++ l2) = (l1 ++ (scanCalls h l2).1, (scanCalls h l2).2) := by
  intro l1
  induction l1 with
  | nil => intro l2 u _; simp [scanCalls]
  | cons c rest ih =>
    intro l2 u hok
    cases hc : h c.1 c.2 with
    | error e => simp [scanCalls, hc] at hok
    | ok u2 =>
      simp only [scanCalls, hc] at hok
      simp only [List.cons_append, scanCalls, hc, List.append_eq]
      rw [ih l2 u hok]

theorem handleStruct_eq_scan {E : Type} (h : Handler E) (fs : List (StructField × GoValue))
    (ihv : ∀ p ∈ fs, handleValue h p.2 = scanCalls h (preTrace p.2)) :
    handleStruct h fs = scanCalls h (preTraceFields fs) := by
  induction fs with
  | nil => simp [handleStruct, preTraceFields, scanCalls]
  | cons p rest ihl =>
    obtain ⟨f, v⟩ := p
    have hv : handleValue h v = scanCalls h (preTrace v) := ihv (f, v) (List.mem_cons_self _ _)
    have hrest : handleStruct h rest = scanCalls h (preTraceFields rest) :=
      ihl (fun q hq => ihv q (List.mem_cons_of_mem _ hq))
    cases hc : h v f with
    | error e => simp [handleStruct, preTraceFields, scanCalls, hc]
    | ok u =>
      cases u
      cases hsv : scanCalls h (preTrace v) with
      | mk t r =>
        cases r with
        | error e =>
          have happ := scanCalls_err_append h (preTrace v) (preTraceFields rest) e
            (by rw [hsv])
          rw [hsv] at happ
          simp [handleStruct, preTraceFields, scanCalls, hc, hv, hsv, happ]
        | ok u2 =>
          have ht : t = preTrace v := by
            have h1 := scanCalls_ok_trace h (preTrace v) u2 (by rw [hsv])
            rw [hsv] at h1
            exact h1
          have happ := scanCalls_ok_append h (preTrace v) (preTraceFields rest) u2
            (by rw [hsv])
          cases hsr : scanCalls h (preTraceFields rest) with
          | mk t2 r2 =>
            rw [hsr] at happ
            simp [handleStruct, preTraceFields, scanCalls, hc, hv, hsv, hrest, hsr, happ, ht]

theorem handleArray_eq_scan {E : Type} (h : Handler E) (vs : List GoValue)
    (ihv : ∀ p ∈ vs, handleValue h p = scanCalls h (preTrace p)) :
    handleArray h vs = scanCalls h (preTraceElems vs) := by
  induction vs with
  | nil => simp [handleArray, preTraceElems, scanCalls]
  | cons v rest ihl =>
    have hv : handleValue h v = scanCalls h (preTrace v) := ihv v (List.mem_cons_self _ _)
    have hrest : handleArray h rest = scanCalls h (preTraceElems rest) :=
      ihl (fun q hq => ihv q (List.mem_cons_of_mem _ hq))
    cases hsv : scanCalls h (preTrace v) with
    | mk t r =>
      cases r with
      | error e =>
        have happ := scanCalls_err_append h (preTrace v) (preTraceElems rest) e
          (by rw [hsv])
        rw [hsv] at happ
        simp [handleArray, preTraceElems, hv, hsv, happ]
      | ok u2 =>
        have ht : t = preTrace v := by
          have h1 := scanCalls_ok_trace h (preTrace v) u2 (by rw [hsv])
          rw [hsv] at h1
          exact h1
        have happ := scanCalls_ok_append h (preTrace v) (preTraceElems rest) u2
          (by rw [hsv])
        cases hsr : scanCalls h (preTraceElems rest) with
        | mk t2 r2 =>
          rw [hsr] at happ
          simp [handleArray, preTraceElems, hv, hsv, hrest, hsr, happ, ht]

theorem handleMap_eq_scan {E : Type} (h : Handler E) (es : List (String × GoValue))
    (ihv : ∀ p ∈ es, handleValue h p.2 = scanCalls h (preTrace p.2)) :
    handleMap h es = scanCalls h (preTraceEntries es) := by
  induction es with
  | nil => simp [handleMap, preTraceEntries, scanCalls]
  | cons p rest ihl =>
    obtain ⟨k, v⟩ := p
    have hv : handleValue h v = scanCalls h (preTrace v) := ihv (k, v) (List.mem_cons_self _ _)
    have hrest : handleMap h rest = scanCalls h (preTraceEntries rest) :=
      ihl (fun q hq => ihv q (List.mem_cons_of_mem _ hq))
    cases hsv : scanCalls h (preTrace v) with
    | mk t r =>
      cases r with
      | error e =>
        have happ := scanCalls_err_append h (preTrace v) (preTraceEntries rest) e
          (by rw [hsv])
        rw [hsv] at happ
        simp [handleMap, preTraceEntries, hv, hsv, happ]
      | ok u2 =>
        have ht : t = preTrace v := by
          have h1 := scanCalls_ok_trace h (preTrace v) u2 (by rw [hsv])
          rw [hsv] at h1
          exact h1
        have happ := scanCalls_ok_append h (preTrace v) (preTraceEntries rest) u2
          (by rw [hsv])
        cases hsr : scanCalls h (preTraceEntries rest) with
        | mk t2 r2 =>
          rw [hsr] at happ
          simp [handleMap, preTraceEntries, hv, hsv, hrest, hsr, happ, ht]

/-- The walk is exactly a fail-fast scan of the pre-order schedule. -/
theorem handleValue_eq_scan {E : Type} (h : Handler E) (v : GoValue) :
    handleValue h v = scanCalls h (preTrace v) := by
  suffices haux : ∀ (n : Nat) (w : GoValue), sizeOf w ≤ n →
      handleValue h w = scanCalls h (preTrace w) from haux (sizeOf v) v le_rfl
  intro n
  induction n with
  | zero =>
    intro w hw
    cases w <;> simp at hw
  | succ n ih =>
    intro w hw
    cases w with
    | intV m => simp [handleValue, preTrace, scanCalls]
    | strV s => simp [handleValue, preTrace, scanCalls]
    | boolV b => simp [handleValue, preTrace, scanCalls]
    | invalid => simp [handleValue, preTrace, scanCalls]
    | ptrV t =>
      cases t with
      | none => simp [handleValue, preTrace, scanCalls]
      | some w2 =>
        have hsz : sizeOf w2 ≤ n := by
          simp at hw
          omega
        simp only [handleValue, preTrace]
        exact ih w2 hsz
    | structV name fs =>
      have hmem : ∀ p ∈ fs, handleValue h p.2 = scanCalls h (preTrace p.2) := by
        intro p hp
        have h1 : sizeOf p < sizeOf fs := List.sizeOf_lt_of_mem hp
        have h2 : sizeOf p.2 < sizeOf p := by
          obtain ⟨a, b⟩ := p
          simp
        have h3 : sizeOf fs < sizeOf (GoValue.structV name fs) := by
          simp
        exact ih p.2 (by omega)
      simp only [handleValue, preTrace]
      exact handleStruct_eq_scan h fs hmem
    | arrV isSlice elems =>
      have hmem : ∀ p ∈ elems, handleValue h p = scanCalls h (preTrace p) := by
        intro p hp
        have h1 : sizeOf p < sizeOf elems := List.sizeOf_lt_of_mem hp
        have h3 : sizeOf elems < sizeOf (GoValue.arrV isSlice elems) := by
          simp
        exact ih p (by omega)
      simp only [handleValue, preTrace]
      exact handleArray_eq_scan h elems hmem
    | mapV entries =>
      have hmem : ∀ p ∈ entries, handleValue h p.2 = scanCalls h (preTrace p.2) := by
        intro p hp
        have h1 : sizeOf p < sizeOf entries := List.sizeOf_lt_of_mem hp
        have h2 : sizeOf p.2 < sizeOf p := by
          obtain ⟨a, b⟩ := p
          simp
        have h3 : sizeOf entries < sizeOf (GoValue.mapV entries) := by
          simp
        exact ih p.2 (by omega)
      simp only [handleValue, preTrace]
      exact handleMap_eq_scan h entries hmem

theorem scanCalls_isPrefix {E : Type} (h : Handler E) :
    ∀ l : List Call, (scanCalls h l).1 <+: l := by
  intro l
  induction l with
  | nil => simp [scanCalls]
  | cons c rest ih =>
    simp only [scanCalls]
    cases hc : h c.1 c.2 with
    | error e => exact ⟨rest, rfl⟩
    | ok u =>
      obtain ⟨t2, ht2⟩ := ih
      refine ⟨t2, ?_⟩
      show (c :: (scanCalls h rest).1) ++ t2 = c :: rest
      rw [List.cons_append, ht2]

theorem scanCalls_err_split {E : Type} (h : Handler E) :
    ∀ (l : List Call) (e : E), (scanCalls h l).2 = .error e →
      ∃ done c, (scanCalls h l).1 = done ++ [c] ∧ h c.1 c.2 = .error e ∧
        ∀ c2 ∈ done, h c2.1 c2.2 = .ok () := by
  intro l
  induction l with
  | nil => intro e he; simp [scanCalls] at he
  | cons c rest ih =>
    intro e he
    cases hc : h c.1 c.2 with
    | error e2 =>
      simp only [scanCalls, hc] at he
      simp only [Except.error.injEq] at he
      subst he
      exact ⟨[], c, by simp [scanCalls, hc], hc, by simp⟩
    | ok u =>
      cases u
      simp only [scanCalls, hc] at he
      obtain ⟨done, cl, h1, h2, h3⟩ := ih e he
      refine ⟨c :: done, cl, ?_, h2, ?_⟩
      · simp only [scanCalls, hc]
        rw [h1]
        simp
      · intro c2 hc2
        rcases List.mem_cons.mp hc2 with h4 | h4
        · subst h4
          exact hc
        · exact h3 c2 h4

theorem leadsList_refl : ∀ n : List Char, leadsList n n = true := by
  intro n
  induction n with
  | nil => simp [leadsList]
  | cons a as ih => simp [leadsList, ih]

theorem leadsList_self_append : ∀ n q : List Char, leadsList n (n ++ q) = true := by
  intro n q
  induction n with
  | nil => simp [leadsList]
  | cons a as ih => simp [leadsList, ih]

theorem includesList_mid : ∀ p n q : List Char, includesList n (p ++ (n ++ q)) = true := by
  intro p n q
  induction p with
  | nil =>
    cases n with
    | nil => cases q <;> simp [includesList, leadsList]
    | cons c cs =>
      have hl := leadsList_self_append (c :: cs) q
      rw [List.cons_append] at hl
      simp [includesList, hl]
  | cons b p2 ih => simp [includesList, ih]

theorem includesList_self_append : ∀ p n : List Char, includesList n (p ++ n) = true := by
  intro p n
  induction p with
  | nil =>
    cases n with
    | nil => simp [includesList, leadsList]
    | cons c cs => simp [includesList, leadsList_refl]
  | cons b p2 ih => simp [includesList, ih]

theorem strIncludes_mid (p n q : String) : strIncludes n (p ++ (n ++ q)) = true := by
  simp only [strIncludes, String.data_append]
  exact includesList_mid p.data n.data q.data

theorem strIncludes_self_append (p n : String) : strIncludes n (p ++ n) = true := by
  simp only [strIncludes, String.data_append]
  exact includesList_self_append p.data n.data

theorem strIncludes_atoiErr (s kind : String) : strIncludes s (atoiErr s kind) = true := by
  simp only [atoiErr]
  exact strIncludes_mid _ s _

theorem atoi_error_form (s e : String) (h : atoi s = .error e) :
    e = atoiErr s "invalid syntax" ∨ e = atoiErr s "value out of range" := by
  simp only [atoi] at h
  repeat' split at h
  all_goals simp_all

theorem walkF_complete_aux {E : Type} (h : Handler E) :
    ∀ fuel : Nat,
      (∀ v : GoValue, sizeOf v ≤ fuel → handleValueF h fuel v = some (handleValue h v)) ∧
      (∀ fs : List (StructField × GoValue), sizeOf fs ≤ fuel →
        handleStructF h fuel fs = some (handleStruct h fs)) ∧
      (∀ es : List GoValue, sizeOf es ≤ fuel →
        handleArrayF h fuel es = some (handleArray h es)) ∧
      (∀ ms : List (String × GoValue), sizeOf ms ≤ fuel →
        handleMapF h fuel ms = some (handleMap h ms)) := by
  intro fuel
  induction fuel with
  | zero =>
    refine ⟨?_, ?_, ?_, ?_⟩
    · intro v hv; cases v <;> simp at hv
    · intro fs hfs; cases fs <;> simp at hfs
    · intro es hes; cases es <;> simp at hes
    · intro ms hms; cases ms <;> simp at hms
  | succ n ih =>
    obtain ⟨ihv, ihs, iha, ihm⟩ := ih
    refine ⟨?_, ?_, ?_, ?_⟩
    · intro v hv
      cases v with
      | intV m => simp [handleValueF, handleValue]
      | strV str => simp [handleValueF, handleValue]
      | boolV b => simp [handleValueF, handleValue]
      | invalid => simp [handleValueF, handleValue]
      | ptrV t =>
        cases t with
        | none => simp [handleValueF, handleValue]
        | some w =>
          have hw : sizeOf w ≤ n := by simp at hv; omega
          simp only [handleValueF, handleValue]
          exact ihv w hw
      | structV name fs =>
        have hfs : sizeOf fs ≤ n := by simp at hv; omega
        simp only [handleValueF, handleValue]
        exact ihs fs hfs
      | arrV b es =>
        have hes : sizeOf es ≤ n := by simp at hv; omega
        simp only [handleValueF, handleValue]
        exact iha es hes
      | mapV ms =>
        have hms : sizeOf ms ≤ n := by simp at hv; omega
        simp only [handleValueF, handleValue]
        exact ihm ms hms
    · intro fs hfs
      cases fs with
      | nil => simp [handleStructF, handleStruct]
      | cons p rest =>
        obtain ⟨f, v⟩ := p
        have hv : sizeOf v ≤ n := by simp at hfs; omega
        have hrest : sizeOf rest ≤ n := by simp at hfs; omega
        cases hc : h v f with
        | error e => simp [handleStructF, handleStruct, hc]
        | ok u =>
          simp only [handleStructF, handleStruct, hc]
          rw [ihv v hv, ihs rest hrest]
          cases hvv : handleValue h v with
          | mk t r =>
            cases r with
            | error e => simp
            | ok u2 =>
              cases hss : handleStruct h rest with
              | mk t2 r2 => simp
    · intro es hes
      cases es with
      | nil => simp [handleArrayF, handleArray]
      | cons v rest =>
        have hv : sizeOf v ≤ n := by simp at hes; omega
        have hrest : sizeOf rest ≤ n := by simp at hes; omega
        simp only [handleArrayF, handleArray]
        rw [ihv v hv, iha rest hrest]
        cases hvv : handleValue h v with
        | mk t r =>
          cases r with
          | error e => simp
          | ok u2 =>
            cases hss : handleArray h rest with
            | mk t2 r2 => simp
    · intro ms hms
      cases ms with
      | nil => simp [handleMapF, handleMap]
      | cons p rest =>
        obtain ⟨key, v⟩ := p
        have hv : sizeOf v ≤ n := by simp at hms; omega
        have hrest : sizeOf rest ≤ n := by simp at hms; omega
        simp only [handleMapF, handleMap]
        rw [ihv v hv, ihm rest hrest]
        cases hvv : handleValue h v with
        | mk t r =>
          cases r with
          | error e => simp
          | ok u2 =>
            cases hss : handleMap h rest with
            | mk t2 r2 => simp

/-- Claim C1: for every structure value, the walk (`TagHandler.Handle` /
`handleValue`) invokes the handler callback exactly once per declared
field, in declaration order, and invokes it on a field before recursing
into that field's contents (pre-order); sequence elements are recursed
into in index order.  Formally: the invocations the walk performs are
always a prefix of the pre-order schedule `preTrace` (one call per field,
declaration order, field before contents, sequence elements in index
order, by construction), and a succeeding walk performs exactly that
schedule. -/
theorem handle_visits_preorder {E : Type} (th : TagHandler E) (v : GoValue) :
    (th.Handle v).1 <+: preTrace v ∧
      ((th.Handle v).2 = .ok () → (th.Handle v).1 = preTrace v) := by
  constructor
  · simp only [TagHandler.Handle, handleValue_eq_scan]
    exact scanCalls_isPrefix th.HandlerFn (preTrace v)
  · intro hok
    simp only [TagHandler.Handle, handleValue_eq_scan] at hok ⊢
    exact scanCalls_ok_trace th.HandlerFn (preTrace v) () hok

/-- Witness for C1: at a concrete three-field struct with an
always-succeeding handler, the walk performs exactly the pre-order
schedule. -/
theorem handle_visits_preorder_witness :
    ((TagHandler.mk hOkSample).Handle sampleStruct).1 = preTrace sampleStruct :=
  (handle_visits_preorder (TagHandler.mk hOkSample) sampleStruct).2
    (by simp [TagHandler.Handle, handleValue, handleStruct, sampleStruct, hOkSample,
      fieldA, fieldB, fieldC])

/-- Claim C2: a failing walk returns exactly the first handler failure,
unchanged (no wrapping or aggregation): the failing invocation is the
last one performed, every earlier invocation succeeded, and the performed
invocations are a prefix of the pre-order schedule — so no later sibling
and no descendant of the failing field is visited, and a nested struct's
fields are visited only when the enclosing field's callback succeeded. -/
theorem handle_fail_fast {E : Type} (th : TagHandler E) (v : GoValue) (e : E)
    (hf : (th.Handle v).2 = .error e) :
    (∃ done c, (th.Handle v).1 = done ++ [c] ∧ th.HandlerFn c.1 c.2 = .error e ∧
        ∀ c2 ∈ done, th.HandlerFn c2.1 c2.2 = .ok ()) ∧
      (th.Handle v).1 <+: preTrace v := by
  constructor
  · simp only [TagHandler.Handle, handleValue_eq_scan] at hf ⊢
    exact scanCalls_err_split th.HandlerFn (preTrace v) e hf
  · simp only [TagHandler.Handle, handleValue_eq_scan]
    exact scanCalls_isPrefix th.HandlerFn (preTrace v)

/-- Witness for C2: with the handler that fails on field B, the walk on
the three-field fixture returns that failure having stopped right there. -/
theorem handle_fail_fast_witness :
    (∃ done c, ((TagHandler.mk hFailB).Handle sampleStruct).1 = done ++ [c] ∧
        (TagHandler.mk hFailB).HandlerFn c.1 c.2 = .error "boom" ∧
        ∀ c2 ∈ done, (TagHandler.mk hFailB).HandlerFn c2.1 c2.2 = .ok ()) ∧
      ((TagHandler.mk hFailB).Handle sampleStruct).1 <+: preTrace sampleStruct :=
  handle_fail_fast (TagHandler.mk hFailB) sampleStruct "boom"
    (by simp [TagHandler.Handle, handleValue, handleStruct, sampleStruct, hFailB,
      fieldA, fieldB, fieldC])

/-- Claim C3: the walker defines no failure of its own — a scalar, an
absent (nil) pointer and an empty sequence each succeed trivially with
zero handler invocations, and every error a walk returns is the output of
one of the handler invocations it performed. -/
theorem walk_no_own_failure {E : Type} (h : Handler E) (v : GoValue) :
    (isScalarKind v = true → handleValue h v = ([], .ok ())) ∧
      handleValue h (.ptrV none) = ([], .ok ()) ∧
      (∀ b, handleValue h (.arrV b []) = ([], .ok ())) ∧
      (∀ e, (handleValue h v).2 = .error e →
        ∃ c ∈ (handleValue h v).1, h c.1 c.2 = .error e) := by
  refine ⟨?_, ?_, ?_, ?_⟩
  · intro hscalar
    cases v with
    | intV n => simp [handleValue]
    | strV s => simp [handleValue]
    | boolV b => simp [handleValue]
    | invalid => simp [handleValue]
    | structV nm fs => simp [isScalarKind] at hscalar
    | arrV b es => simp [isScalarKind] at hscalar
    | mapV ms => simp [isScalarKind] at hscalar
    | ptrV t => simp [isScalarKind] at hscalar
  · simp [handleValue]
  · intro b
    simp [handleValue, handleArray]
  · intro e he
    rw [handleValue_eq_scan] at he ⊢
    obtain ⟨done, c, h1, h2, _⟩ := scanCalls_err_split h (preTrace v) e he
    refine ⟨c, ?_, h2⟩
    rw [h1]
    simp

/-- Witness for C3: a scalar walk is a no-op, and the failing walk on the
fixture returns an error that one of its own invocations produced. -/
theorem walk_no_own_failure_witness :
    handleValue hFailB (.intV 3) = ([], .ok ()) ∧
      ∃ c ∈ (handleValue hFailB sampleStruct).1, hFailB c.1 c.2 = .error "boom" :=
  ⟨(walk_no_own_failure hFailB (.intV 3)).1 rfl,
   (walk_no_own_failure hFailB sampleStruct).2.2.2 "boom"
     (by simp [handleValue, handleStruct, sampleStruct, hFailB, fieldA, fieldB, fieldC])⟩

/-- Claim C4: the regex validation handler succeeds trivially without a
`validate` tag; when the tag compiles, it succeeds exactly when the
value's canonical display string (base-10 for ints) matches the pattern
as given; concretely 1990 passes `^(19|20)\\d\\d$`, while 195 fails with an
error naming the field and the mismatched pattern. -/
theorem validate_handler_spec :
    (∀ (v : GoValue) (f : StructField), tagLookup f "validate" = none →
        handleValidateTag v f = .ok ()) ∧
      (∀ (v : GoValue) (f : StructField) (tag : String) (re : Regex),
        tagLookup f "validate" = some tag → regexpCompile tag = .ok re →
        (handleValidateTag v f = .ok () ↔ matchString re (valueToString v) = true)) ∧
      handleValidateTag (.intV 1990) birthYearField = .ok () ∧
      handleValidateTag (.intV 195) birthYearField =
        .error "invalid field (int::BirthYear) 195 != ^(19|20)\\d\\d$" ∧
      strIncludes "BirthYear" "invalid field (int::BirthYear) 195 != ^(19|20)\\d\\d$" = true ∧
      strIncludes "^(19|20)\\d\\d$" "invalid field (int::BirthYear) 195 != ^(19|20)\\d\\d$" =
        true := by
  refine ⟨?_, ?_, by rfl, by rfl, by rfl, by rfl⟩
  · intro v f hnone
    simp [handleValidateTag, hnone]
  · intro v f tag re htag hre
    simp only [handleValidateTag, htag, hre]
    cases hm : matchString re (valueToString v) <;> simp [hm]

/-- Witness for C4: the tag-free field is accepted for any value and the
iff holds at the BirthYear field with its compiled pattern. -/
theorem validate_handler_spec_witness :
    handleValidateTag (.strV "hello") fieldA = .ok () ∧
      (handleValidateTag (.intV 1990) birthYearField = .ok () ↔
        matchString reBirthYear (valueToString (.intV 1990)) = true) :=
  ⟨validate_handler_spec.1 (.strV "hello") fieldA rfl,
   validate_handler_spec.2.1 (.intV 1990) birthYearField "^(19|20)\\d\\d$" reBirthYear rfl rfl⟩

/-- Counterexample to claim C5 as stated: for the field named `Email`
whose `validate` payload `(` does not compile, the handler's error names
the syntax problem but not the field. -/
theorem validate_syntax_error_counterexample :
    handleValidateTag (.strV "x") badPatternField =
        .error "validation regexp syntax error: missing closing )" ∧
      strIncludes "Email" "validation regexp syntax error: missing closing )" = false :=
  ⟨by rfl, by rfl⟩

/-- Claim C5 (amended): when a field's `validate` payload fails to
compile, the handler returns a distinct syntax error — the underlying
compile problem behind the fixed "validation regexp syntax error: "
prefix — which carries the syntax problem but not the field name. -/
theorem validate_syntax_error_spec (v : GoValue) (f : StructField) (tag e : String)
    (htag : tagLookup f "validate" = some tag) (hre : regexpCompile tag = .error e) :
    handleValidateTag v f = .error ("validation regexp syntax error: " ++ e) ∧
      strIncludes e ("validation regexp syntax error: " ++ e) = true := by
  constructor
  · simp [handleValidateTag, htag, hre]
  · exact strIncludes_self_append "validation regexp syntax error: " e

/-- Witness for C5 (amended) at the bad-pattern fixture. -/
theorem validate_syntax_error_spec_witness :
    handleValidateTag (.strV "x") badPatternField =
        .error ("validation regexp syntax error: " ++ "missing closing )") ∧
      strIncludes "missing closing )"
        ("validation regexp syntax error: " ++ "missing closing )") = true :=
  validate_syntax_error_spec (.strV "x") badPatternField "(" "missing closing )" rfl rfl

/-- Claim C6: with a `conf` tag naming a set environment variable, the
config handler assigns the content verbatim to a string-kind field and
its base-10 parse to an int-kind field ("5" yields 5); and the walk
started from a pointer to the value carries the assignment into the
caller's value (in-place mutation through the reference passed to
`Handle`). -/
theorem config_handler_assigns (env : Env) (f : StructField) (tag s : String)
    (htag : tagLookup f "conf" = some tag) (henv : lookupEnv env tag = some s) :
    (∀ prev : String, handleConfigTag env true (.strV prev) f = .ok (.strV s)) ∧
      (∀ (prev n : Int), atoi s = .ok n →
        handleConfigTag env true (.intV prev) f = .ok (.intV n)) ∧
      (∀ (name prev : String) (fuel : Nat),
        mHandle (handleConfigTag env) (fuel + 4)
            (.ptrV (some (.structV name [(f, .strV prev)]))) =
          some (.ok (.ptrV (some (.structV name [(f, .strV s)]))))) := by
  refine ⟨?_, ?_, ?_⟩
  · intro prev
    simp [handleConfigTag, htag, henv, setValue]
  · intro prev n hs
    simp [handleConfigTag, htag, henv, setValue, hs]
  · intro name prev fuel
    simp [mHandle, mHandleValue, mHandleFields, handleConfigTag, htag, henv, setValue]

/-- Witness for C6 with the `Config` fixtures: host string assigned
verbatim, "5" parsed into the int field, and the walk from a pointer
rewriting the pointee's field. -/
theorem config_handler_assigns_witness :
    handleConfigTag sampleEnv true (.strV "old") elasticHostField = .ok (.strV "localhost") ∧
      handleConfigTag sampleEnv true (.intV 0) httpRetriesField = .ok (.intV 5) ∧
      mHandle (handleConfigTag sampleEnv) (0 + 4)
          (.ptrV (some (.structV "C" [(elasticHostField, .strV "old")]))) =
        some (.ok (.ptrV (some (.structV "C" [(elasticHostField, .strV "localhost")])))) :=
  ⟨(config_handler_assigns sampleEnv elasticHostField "ELASTICSEARCH_HOST" "localhost"
      rfl rfl).1 "old",
   (config_handler_assigns sampleEnv httpRetriesField "HTTP_MAX_RETRIES" "5"
      rfl rfl).2.1 0 5 rfl,
   (config_handler_assigns sampleEnv elasticHostField "ELASTICSEARCH_HOST" "localhost"
      rfl rfl).2.2 "C" "old" 0⟩

/-- Claim C7: the config handler returns success and leaves the field at
its prior value when the `conf` tag is absent, when the named variable is
unset, and when the field's kind is neither string nor signed int. -/
theorem config_handler_noop (env : Env) (canAddr : Bool) (v : GoValue) (f : StructField) :
    (tagLookup f "conf" = none → handleConfigTag env canAddr v f = .ok v) ∧
      (∀ tag, tagLookup f "conf" = some tag → lookupEnv env tag = none →
        handleConfigTag env canAddr v f = .ok v) ∧
      (∀ tag s, tagLookup f "conf" = some tag → lookupEnv env tag = some s →
        isStrOrIntKind v = false → handleConfigTag env canAddr v f = .ok v) := by
  refine ⟨?_, ?_, ?_⟩
  · intro hnone
    simp [handleConfigTag, hnone]
  · intro tag htag henv
    simp [handleConfigTag, htag, henv]
  · intro tag s htag henv hkind
    cases v <;> simp_all [handleConfigTag, setValue, isStrOrIntKind]

/-- Witness for C7: untagged field, unset variable, and a bool field with
a set variable are all left untouched. -/
theorem config_handler_noop_witness :
    handleConfigTag sampleEnv true (.intV 7) fieldA = .ok (.intV 7) ∧
      handleConfigTag [] true (.intV 7) httpRetriesField = .ok (.intV 7) ∧
      handleConfigTag sampleEnv true (.boolV true) httpRetriesField = .ok (.boolV true) :=
  ⟨(config_handler_noop sampleEnv true (.intV 7) fieldA).1 rfl,
   (config_handler_noop [] true (.intV 7) httpRetriesField).2.1 "HTTP_MAX_RETRIES" rfl rfl,
   (config_handler_noop sampleEnv true (.boolV true) httpRetriesField).2.2
     "HTTP_MAX_RETRIES" "5" rfl rfl rfl⟩

/-- Counterexample to claim C8 as stated: with HTTP_MAX_RETRIES set to
"abc", the parse error for the int field `HttpMaxRetries` carries the raw
content but does not name the field. -/
theorem config_parse_error_counterexample :
    handleConfigTag badEnv true (.intV 0) httpRetriesField =
        .err "strconv.Atoi: parsing \"abc\": invalid syntax" ∧
      strIncludes "abc" "strconv.Atoi: parsing \"abc\": invalid syntax" = true ∧
      strIncludes "HttpMaxRetries" "strconv.Atoi: parsing \"abc\": invalid syntax" = false :=
  ⟨by rfl, by rfl, by rfl⟩

/-- Claim C8 (amended): when the `conf`-named variable is set but its
content fails to parse for an int field, the handler returns exactly
`strconv.Atoi`'s parse error, which includes the raw string content; the
field name is not part of it. -/
theorem config_parse_error_spec (env : Env) (canAddr : Bool) (f : StructField)
    (tag s e : String) (prev : Int)
    (htag : tagLookup f "conf" = some tag) (henv : lookupEnv env tag = some s)
    (hparse : atoi s = .error e) :
    handleConfigTag env canAddr (.intV prev) f = .err e ∧ strIncludes s e = true := by
  constructor
  · simp [handleConfigTag, htag, henv, setValue, hparse]
  · rcases atoi_error_form s e hparse with he | he <;> (subst he; exact strIncludes_atoiErr s _)

/-- Witness for C8 (amended) at the bad-environment fixture. -/
theorem config_parse_error_spec_witness :
    handleConfigTag badEnv true (.intV 0) httpRetriesField =
        .err "strconv.Atoi: parsing \"abc\": invalid syntax" ∧
      strIncludes "abc" "strconv.Atoi: parsing \"abc\": invalid syntax" = true :=
  config_parse_error_spec badEnv true httpRetriesField "HTTP_MAX_RETRIES" "abc"
    "strconv.Atoi: parsing \"abc\": invalid syntax" 0 rfl rfl rfl

/-- Counterexample to claim C9 as stated: `Handle` on a by-value root
whose field holds a pointer to a `Config` — the handler receives the
pointee's fields as addressable values, so with both variables set the
walk mutates them and succeeds; nothing panics even though the root was
passed by copy, refuting "every reflect.Value the handler receives is
unaddressable, so a setting handler panics". -/
theorem by_value_root_counterexample :
    mHandle (handleConfigTag sampleEnv) 8 outerWithPtr =
      some (.ok (.structV "Outer"
        [(⟨"Cfg", "*Config", []⟩, .ptrV (some (configValue 5 "localhost")))])) := by rfl

/-- Claim C9 (amended): a by-value root's directly declared fields are
unaddressable, so on such a string-kind field whose `conf` variable is
set the config handler's `SetString` panics instead of returning an
error, and mutating the root's own fields in place requires passing a
pointer — the same walk started from a pointer to the struct succeeds and
rewrites the field (as the demonstration does with &cfg); only values
reached through indirection inside a by-value root remain addressable. -/
theorem by_value_direct_field_panics (env : Env) (f : StructField) (tag s : String)
    (name prev : String) (rest : List (StructField × GoValue)) (fuel : Nat)
    (htag : tagLookup f "conf" = some tag) (henv : lookupEnv env tag = some s) :
    mHandle (handleConfigTag env) (fuel + 2) (.structV name ((f, .strV prev) :: rest)) =
        some (.panicked "reflect: reflect.Value.SetString using unaddressable value") ∧
      (∀ fl : Nat,
        mHandle (handleConfigTag env) (fl + 4)
            (.ptrV (some (.structV name [(f, .strV prev)]))) =
          some (.ok (.ptrV (some (.structV name [(f, .strV s)]))))) := by
  constructor
  · simp [mHandle, mHandleValue, mHandleFields, handleConfigTag, htag, henv, setValue]
  · intro fl
    simp [mHandle, mHandleValue, mHandleFields, handleConfigTag, htag, henv, setValue]

/-- Witness for C9 (amended): the by-value `Config` walk panics on its
host field. -/
theorem by_value_direct_field_panics_witness :
    mHandle (handleConfigTag sampleEnv) (0 + 2)
        (.structV "Config" [(elasticHostField, .strV "")]) =
      some (.panicked "reflect: reflect.Value.SetString using unaddressable value") :=
  (by_value_direct_field_panics sampleEnv elasticHostField "ELASTICSEARCH_HOST" "localhost"
      "Config" "" [] 0 rfl rfl).1

/-- Claim C10: the walk terminates on every finite, acyclic value — each
recursive call of `handleValue`/`handleStruct`/`handleArray`/`handleMap`
descends into a strict structural subvalue, so the fuel-indexed walker
completes (agreeing with the total walker) whenever its fuel is at least
the structural size of the root. -/
theorem walk_terminates {E : Type} (h : Handler E) (v : GoValue) (fuel : Nat)
    (hfuel : sizeOf v ≤ fuel) :
    handleValueF h fuel v = some (handleValue h v) :=
  (walkF_complete_aux h fuel).1 v hfuel

/-- Witness for C10 at the concrete three-field fixture. -/
theorem walk_terminates_witness :
    handleValueF hOkSample 100000 sampleStruct = some (handleValue hOkSample sampleStruct) :=
  walk_terminates hOkSample sampleStruct 100000 (by decide)

end CustomTags
